import Mathlib

/-!
Verification of the distributed rate limiter (fixed-window counter over a
shared atomic store).

The embedding models the code of `src/app/rate_limiter.py` and the store
boundary of `src/app/redis_client.py`.  Wall-clock instants are Unix epoch
seconds (`Nat`, the service runs after 1970); `datetime` values returned to
the caller (`reset_at`) are likewise epoch seconds.  Store values are raw
strings, as Redis holds them; the wrapper in `redis_client.py` catches every
`RedisError` and returns an in-band sentinel (`None`, `False`, `-1`), which we
model with an explicit failure-injection record plus the documented semantics
of the underlying Redis commands (GET / INCR / EXPIRE / TTL / DEL).
A Python exception escaping `check_rate_limit` is modelled as `Except.error`.
-/

namespace RateLimiterModel

/-- Python errors that the embedded code can raise (only `TypeError` is
reachable: `limit - None` when `incr` returned `None`). -/
inductive PyErr where
  | typeError
deriving Repr, DecidableEq

/-- Characters Python `int(str)` strips from both ends (ASCII whitespace). -/
def isPySpace (c : Char) : Bool :=
  c = ' ' || c = '\t' || c = '\n' || c = '\r' || c = Char.ofNat 11 || c = Char.ofNat 12

/-- Tail of a Python integer literal after its first digit: digits, with
single underscores allowed only between digits. -/
def pyDigitsTail : List Char → Bool
  | [] => true
  | c :: rest =>
    if c = '_' then
      match rest with
      | [] => false
      | d :: rest2 => d.isDigit && pyDigitsTail rest2
    else c.isDigit && pyDigitsTail rest

/-- A valid Python digit run: nonempty, starts with a digit, underscores only
between digits. -/
def pyDigitsOk : List Char → Bool
  | [] => false
  | c :: rest => c.isDigit && pyDigitsTail rest

/-- Numeric value of a big-endian list of decimal digit characters. -/
def natOfDigits (l : List Char) : Nat :=
  l.foldl (fun a c => a * 10 + (c.toNat - 48)) 0

/-- Value of a stripped, signless Python digit run (underscores ignored). -/
def pyDigitsVal (l : List Char) : Nat :=
  natOfDigits (l.filter (fun c => c ≠ '_'))

/-- Leading and trailing whitespace removal performed by Python `int(str)`. -/
def pyStrip (l : List Char) : List Char :=
  ((l.dropWhile isPySpace).reverse.dropWhile isPySpace).reverse

/-- Sign-and-digits phase of Python `int(str)`ʼs grammar, applied to the
stripped character list. -/
def pyIntCore : List Char → Option Int
  | [] => none
  | c :: rest =>
    if c = '+' then if pyDigitsOk rest then some (pyDigitsVal rest) else none
    else if c = '-' then if pyDigitsOk rest then some (-(pyDigitsVal rest : Int)) else none
    else if pyDigitsOk (c :: rest) then some (pyDigitsVal (c :: rest)) else none

/-- Model of Python `int(str)`: strip whitespace, optional sign, decimal
digits with optional single underscores between digits.  `none` models a
`ValueError`. -/
def pyInt (s : String) : Option Int :=
  pyIntCore (pyStrip s.data)

/-- Digits (no sign, no leading zero unless the number is 0) accepted by the
store for arithmetic commands: Redis `string2ll` requires the first digit in
1-9 (here: a digit other than 0) unless the whole string is `0`. -/
def redisDigitsOk : List Char → Bool
  | [] => false
  | c :: rest =>
    if c = '0' then rest.isEmpty
    else (c.isDigit && rest.all Char.isDigit)

/-- Head analysis of Redis `string2ll`: optional minus sign, canonical
decimal digits. -/
def redisIntCore : List Char → Option Int
  | [] => none
  | c :: rest =>
    if c = '-' then if redisDigitsOk rest then some (-(natOfDigits rest : Int)) else none
    else if redisDigitsOk (c :: rest) then some (natOfDigits (c :: rest)) else none

/-- Model of the integer reader the store applies before `INCR`
(Redis `string2ll`).  `none` models the `value is not an integer` error. -/
def redisInt (s : String) : Option Int :=
  redisIntCore s.data

/-- Big-endian decimal digits of a positive numeral, accumulator form. -/
def natDigitsAux : Nat → List Char → List Char
  | 0, acc => acc
  | n + 1, acc => natDigitsAux ((n + 1) / 10) (Char.ofNat (48 + (n + 1) % 10) :: acc)
decreasing_by exact Nat.div_lt_self (Nat.succ_pos n) (by decide)

/-- Canonical decimal rendering of a natural number. -/
def natRepr (n : Nat) : String := if n = 0 then "0" else ⟨natDigitsAux n []⟩

/-- Canonical decimal rendering of an integer, as the store writes counter
values back. -/
def intRepr (i : Int) : String :=
  if i < 0 then "-" ++ natRepr (-i).toNat else natRepr i.toNat

/-- State of the shared counter store: raw string value per key, and the
remaining lifetime the store would report for a key.  CounterStore contract,
spec section 4.3, backed by Redis in `src/app/redis_client.py`. -/
structure Store where
  val : String → Option String
  lifetime : String → Int

/-- Which store calls fail at the transport level.  `RedisClient` catches
every such failure and returns the in-band sentinel of the method
(`src/app/redis_client.py` lines 85-131). -/
structure Behavior where
  getFails : Bool := false
  incrFails : Bool := false
  expireFails : Bool := false
  ttlFails : Bool := false
  deleteFails : Bool := false
deriving Repr, DecidableEq

/-- The behavior with no transport failures. -/
def noFail : Behavior := {}

/-- One store call as recorded in a trace, with the value the wrapper
returned where a claim needs it. -/
inductive StoreOp where
  | getOp (key : String)
  | incrOp (key : String) (returned : Option Int)
  | expireOp (key : String) (seconds : Nat)
  | ttlOp (key : String)
  | deleteOp (key : String)
deriving Repr, DecidableEq

/-- The key a store call addresses. -/
def StoreOp.key : StoreOp → String
  | .getOp k => k
  | .incrOp k _ => k
  | .expireOp k _ => k
  | .ttlOp k => k
  | .deleteOp k => k

/-- `RedisClient.get`: the raw value, `None` on a missing key or on a caught
transport failure. -/
def storeGet (B : Behavior) (S : Store) (key : String) : Option String :=
  if B.getFails then none else S.val key

/-- `RedisClient.incr`: Redis INCR creates the record at 0 when absent, then
increments the canonical integer value; a non-integer value is a
`RedisError`, which the wrapper turns into `None`, as it does a transport
failure.  Returns the wrapper's answer and the new store state. -/
def storeIncr (B : Behavior) (S : Store) (key : String) : Option Int × Store :=
  if B.incrFails then (none, S)
  else
    match S.val key with
    | none =>
      (some 1,
       { val := fun k => if k = key then some (intRepr 1) else S.val k,
         lifetime := fun k => if k = key then -1 else S.lifetime k })
    | some v =>
      match redisInt v with
      | some n =>
        (some (n + 1),
         { val := fun k => if k = key then some (intRepr (n + 1)) else S.val k,
           lifetime := S.lifetime })
      | none => (none, S)

/-- `RedisClient.expire`: arms the key's lifetime; `False` on a missing key
or a caught transport failure. -/
def storeExpire (B : Behavior) (S : Store) (key : String) (seconds : Nat) : Bool × Store :=
  if B.expireFails then (false, S)
  else
    match S.val key with
    | none => (false, S)
    | some _ =>
      (true,
       { val := S.val,
         lifetime := fun k => if k = key then (seconds : Int) else S.lifetime k })

/-- `RedisClient.ttl`: seconds before expiry, `-2` for a missing key (Redis),
`-1` on a caught transport failure. -/
def storeTtl (B : Behavior) (S : Store) (key : String) : Int :=
  if B.ttlFails then -1
  else match S.val key with
    | none => -2
    | some _ => S.lifetime key

/-- `RedisClient.delete`: removes the record, reports whether one existed;
`False` on a caught transport failure. -/
def storeDelete (B : Behavior) (S : Store) (key : String) : Bool × Store :=
  if B.deleteFails then (false, S)
  else
    match S.val key with
    | none => (false, S)
    | some _ =>
      (true,
       { val := fun k => if k = key then none else S.val k, lifetime := S.lifetime })

/-- The store with no records. -/
def emptyStore : Store := { val := fun _ => none, lifetime := fun _ => -2 }

/-- Proleptic Gregorian date (year, month, day) of a day count since
1970-01-01, the conversion `datetime.fromtimestamp(..., tz=timezone.utc)`
performs (standard civil-from-days algorithm). -/
def civilFromDays (z : Nat) : Nat × Nat × Nat :=
  let z' := z + 719468
  let era := z' / 146097
  let doe := z' % 146097
  let yoe := (doe - doe / 1460 + doe / 36524 - doe / 146096) / 365
  let y := yoe + era * 400
  let doy := doe - (365 * yoe + yoe / 4 - yoe / 100)
  let mp := (5 * doy + 2) / 153
  let d := doy - (153 * mp + 2) / 5 + 1
  let m := if mp < 10 then mp + 3 else mp - 9
  (if m ≤ 2 then y + 1 else y, m, d)

/-- Two-digit zero padding used by `strftime` numeric fields. -/
def pad2 (n : Nat) : String := if n < 10 then "0" ++ toString n else toString n

/-- `now.strftime("%Y-%m-%d-%H:%M")` of the UTC instant `e` epoch seconds. -/
def fmtMinute (e : Nat) : String :=
  let ymd := civilFromDays (e / 86400)
  let hh := e % 86400 / 3600
  let mm := e % 86400 % 3600 / 60
  toString ymd.1 ++ "-" ++ pad2 ymd.2.1 ++ "-" ++ pad2 ymd.2.2 ++ "-" ++ pad2 hh ++ ":" ++ pad2 mm

/-- `now.strftime("%Y-%m-%d-%H")` of the UTC instant `e` epoch seconds. -/
def fmtHour (e : Nat) : String :=
  let ymd := civilFromDays (e / 86400)
  let hh := e % 86400 / 3600
  toString ymd.1 ++ "-" ++ pad2 ymd.2.1 ++ "-" ++ pad2 ymd.2.2 ++ "-" ++ pad2 hh

/-- `RateLimiter._get_current_window` (src/app/rate_limiter.py lines
163-188): calendar label for 60 s and 3600 s windows, epoch-bucket label
otherwise. -/
def getCurrentWindow (windowSeconds : Nat) (now : Nat) : String :=
  if windowSeconds = 60 then fmtMinute now
  else if windowSeconds = 3600 then fmtHour now
  else toString (now / windowSeconds * windowSeconds)

/-- `RateLimiter._calculate_reset_time` (src/app/rate_limiter.py lines
190-219), as an epoch instant.  `now.replace(second=0, microsecond=0)` is
truncation to the minute, `now.replace(minute=0, second=0, microsecond=0)`
truncation to the hour; UTC epoch seconds make both exact subtractions of
the remainder. -/
def calculateResetTime (windowSeconds : Nat) (now : Nat) : Nat :=
  if windowSeconds = 60 then now - now % 60 + 60
  else if windowSeconds = 3600 then now - now % 3600 + 3600
  else now / windowSeconds * windowSeconds + windowSeconds

/-- `RateLimiter._build_redis_key` (src/app/rate_limiter.py line 161). -/
def buildRedisKey (identifierType identifier window : String) : String :=
  "rate:" ++ identifierType ++ ":" ++ identifier ++ ":" ++ window

/-- `RateLimiter._get_current_count` (src/app/rate_limiter.py lines
221-237): parse the raw value with Python `int`, 0 when the key is absent or
the value unparseable (`ValueError` caught, logged). -/
def getCurrentCount (B : Behavior) (S : Store) (key : String) : Int :=
  match storeGet B S key with
  | none => 0
  | some v =>
    match pyInt v with
    | some n => n
    | none => 0

/-- `RateLimitResult` (src/app/rate_limiter.py lines 14-28); `reset_at` as
epoch seconds. -/
structure RateLimitResult where
  allowed : Bool
  limit : Int
  remaining : Int
  resetAt : Nat
  currentCount : Int
  window : String
  retryAfter : Int := 0
deriving Repr, DecidableEq

/-- Outcome of one `RateLimiter` call: the Python return value (or the
exception that escaped), the store afterwards, and the trace of store calls
made. -/
structure CheckOutcome where
  result : Except PyErr RateLimitResult
  store : Store
  ops : List StoreOp

/-- Body of `RateLimiter.check_rate_limit` (src/app/rate_limiter.py lines
65-110) after the strategy lookup extracted `limit` and `window_seconds`.
When `incr` returned `None`, `new_count == 1` is false in Python, and
`max(0, limit - new_count)` raises `TypeError`. -/
def checkWithConfig (B : Behavior) (S : Store) (limit : Int) (windowSeconds : Nat)
    (identifier identifierType : String) (now : Nat) : CheckOutcome :=
  let window := getCurrentWindow windowSeconds now
  let key := buildRedisKey identifierType identifier window
  let currentCount := getCurrentCount B S key
  if currentCount ≥ limit then
    let ttlv := storeTtl B S key
    let retryAfter := if ttlv > 0 then ttlv else (windowSeconds : Int)
    { result := .ok
        { allowed := false, limit := limit, remaining := 0,
          resetAt := calculateResetTime windowSeconds now,
          currentCount := currentCount, window := window, retryAfter := retryAfter },
      store := S, ops := [.getOp key, .ttlOp key] }
  else
    let incrRes := storeIncr B S key
    match incrRes.1 with
    | none =>
      { result := .error .typeError, store := incrRes.2,
        ops := [.getOp key, .incrOp key none] }
    | some newCount =>
      if newCount = 1 then
        let expRes := storeExpire B incrRes.2 key windowSeconds
        { result := .ok
            { allowed := true, limit := limit,
              remaining := max 0 (limit - newCount),
              resetAt := calculateResetTime windowSeconds now,
              currentCount := newCount, window := window },
          store := expRes.2,
          ops := [.getOp key, .incrOp key (some newCount), .expireOp key windowSeconds] }
      else
        { result := .ok
            { allowed := true, limit := limit,
              remaining := max 0 (limit - newCount),
              resetAt := calculateResetTime windowSeconds now,
              currentCount := newCount, window := window },
          store := incrRes.2,
          ops := [.getOp key, .incrOp key (some newCount)] }

/-- Body of `RateLimiter.get_rate_limit_status` (src/app/rate_limiter.py
lines 129-146) after the strategy lookup. -/
def getStatusWithConfig (B : Behavior) (S : Store) (limit : Int) (windowSeconds : Nat)
    (identifier identifierType : String) (now : Nat) : CheckOutcome :=
  let window := getCurrentWindow windowSeconds now
  let key := buildRedisKey identifierType identifier window
  let currentCount := getCurrentCount B S key
  let remaining := max 0 (limit - currentCount)
  { result := .ok
      { allowed := decide (currentCount < limit), limit := limit, remaining := remaining,
        resetAt := calculateResetTime windowSeconds now,
        currentCount := currentCount, window := window },
    store := S, ops := [.getOp key] }

/-- Body of `RateLimiter.reset_rate_limit` (src/app/rate_limiter.py lines
252-256) after the strategy lookup: delete the current window's key. -/
def resetWithConfig (B : Behavior) (S : Store) (windowSeconds : Nat)
    (identifier identifierType : String) (now : Nat) : Bool × Store × List StoreOp :=
  let window := getCurrentWindow windowSeconds now
  let key := buildRedisKey identifierType identifier window
  let delRes := storeDelete B S key
  (delRes.1, delRes.2, [.deleteOp key])

/-- One rate-limit strategy (src/app/config.py `RATE_LIMIT_STRATEGIES`
entries). -/
structure Strategy where
  limit : Int
  window : Nat
deriving Repr, DecidableEq

/-- The `"ip"` strategy in `RATE_LIMIT_STRATEGIES`: the free tier's 20
requests per 60-second window. -/
def ipStrategy : Strategy := { limit := 20, window := 60 }

/-- `RATE_LIMIT_STRATEGIES` (src/app/config.py lines 58-67). -/
def RATE_LIMIT_STRATEGIES : List (String × Strategy) :=
  [("user", { limit := 20, window := 60 }), ("ip", ipStrategy)]

/-- `RATE_LIMIT_STRATEGIES.get(identifier_type, RATE_LIMIT_STRATEGIES["ip"])`. -/
def lookupStrategy (identifierType : String) : Strategy :=
  (RATE_LIMIT_STRATEGIES.lookup identifierType).getD ipStrategy

/-- `RateLimiter.check_rate_limit` with the configured strategy table. -/
def checkRateLimit (B : Behavior) (S : Store) (identifier identifierType : String)
    (now : Nat) : CheckOutcome :=
  let config := lookupStrategy identifierType
  checkWithConfig B S config.limit config.window identifier identifierType now

/-- `RateLimiter.get_rate_limit_status` with the configured strategy table. -/
def getRateLimitStatus (B : Behavior) (S : Store) (identifier identifierType : String)
    (now : Nat) : CheckOutcome :=
  let config := lookupStrategy identifierType
  getStatusWithConfig B S config.limit config.window identifier identifierType now

/-- A sequence of `n` consecutive `check` calls at the same instant (hence in
one window), threading the store, concatenating the traces. -/
def runChecks (B : Behavior) (S : Store) (limit : Int) (windowSeconds : Nat)
    (identifier identifierType : String) (now : Nat) : Nat → Store × List StoreOp
  | 0 => (S, [])
  | n + 1 =>
    let out := checkWithConfig B S limit windowSeconds identifier identifierType now
    let rest := runChecks B out.store limit windowSeconds identifier identifierType now n
    (rest.1, out.ops ++ rest.2)

/-- A store holding exactly one record. -/
def storeWithValue (key v : String) : Store :=
  { val := fun k => if k = key then some v else none, lifetime := fun _ => -2 }

/-- Whether a store call is an `expire`. -/
def isExpireCall : StoreOp → Bool
  | .expireOp _ _ => true
  | _ => false

/-- Whether a store call writes (`incr`, `expire` or `delete`); `get` and
`ttl` are pure reads. -/
def isWriteCall : StoreOp → Bool
  | .incrOp _ _ => true
  | .expireOp _ _ => true
  | .deleteOp _ => true
  | _ => false

/-- The counter record for a key holds the canonical decimal rendering of a
positive count — the shape every record written by `check`ʼs increment has. -/
def CounterInv (S : Store) (key : String) : Prop :=
  ∃ k : Int, 1 ≤ k ∧ S.val key = some (intRepr k)

theorem char_digit_toNat : ∀ r : Nat, r < 10 → (Char.ofNat (48 + r)).toNat - 48 = r := by
  decide

theorem char_digit_isDigit : ∀ r : Nat, r < 10 → (Char.ofNat (48 + r)).isDigit = true := by
  decide

theorem char_digit_bounds : ∀ r : Nat, r < 10 → 1 ≤ r →
    ((Char.ofNat (48 + r)).isDigit = true ∧ Char.ofNat (48 + r) ≠ '0') := by
  decide

theorem natDigitsAux_value (n : Nat) : ∀ acc : List Char,
    natOfDigits (natDigitsAux n acc) =
      acc.foldl (fun a c => a * 10 + (c.toNat - 48)) n := by
  induction n using Nat.strong_induction_on with
  | _ n ih =>
    intro acc
    rcases n with _ | m
    · simp [natDigitsAux, natOfDigits]
    · rw [natDigitsAux]
      rw [ih ((m + 1) / 10) (Nat.div_lt_self (Nat.succ_pos m) (by decide))]
      show List.foldl _ ((m + 1) / 10 * 10 + ((Char.ofNat (48 + (m + 1) % 10)).toNat - 48)) acc
        = List.foldl _ (m + 1) acc
      have h10 : (m + 1) % 10 < 10 := Nat.mod_lt _ (by decide)
      rw [char_digit_toNat _ h10]
      have := Nat.div_add_mod (m + 1) 10
      congr 1
      omega

theorem natDigitsAux_mem (n : Nat) : ∀ (acc : List Char) (c : Char),
    c ∈ natDigitsAux n acc → c ∈ acc ∨ c.isDigit = true := by
  induction n using Nat.strong_induction_on with
  | _ n ih =>
    intro acc c hc
    rcases n with _ | m
    · exact Or.inl (by simpa [natDigitsAux] using hc)
    · rw [natDigitsAux] at hc
      rcases ih ((m + 1) / 10) (Nat.div_lt_self (Nat.succ_pos m) (by decide)) _ c hc with h | h
      · rcases List.mem_cons.mp h with h1 | h1
        · exact Or.inr (h1 ▸ char_digit_isDigit _ (Nat.mod_lt _ (by decide)))
        · exact Or.inl h1
      · exact Or.inr h

theorem natDigitsAux_head (n : Nat) (hn : 1 ≤ n) : ∀ acc : List Char, ∃ c rest,
    natDigitsAux n acc = c :: rest ∧ c.isDigit = true ∧ c ≠ '0' := by
  induction n using Nat.strong_induction_on with
  | _ n ih =>
    intro acc
    rcases n with _ | m
    · omega
    · rw [natDigitsAux]
      by_cases hq : (m + 1) / 10 = 0
      · have hlt : m + 1 < 10 := by omega
        have hmod : (m + 1) % 10 = m + 1 := Nat.mod_eq_of_lt hlt
        refine ⟨Char.ofNat (48 + (m + 1) % 10), acc, ?_, ?_, ?_⟩
        · rw [hq]; simp [natDigitsAux]
        · exact (hmod ▸ char_digit_bounds (m + 1) hlt (by omega)).1
        · exact (hmod ▸ char_digit_bounds (m + 1) hlt (by omega)).2
      · exact ih ((m + 1) / 10) (Nat.div_lt_self (Nat.succ_pos m) (by decide)) (by omega) _

theorem isDigit_ne {c d : Char} (h : c.isDigit = true) (hd : d.isDigit = false) : c ≠ d := by
  intro he
  rw [he, hd] at h
  exact Bool.false_ne_true h

theorem isDigit_not_pySpace {c : Char} (h : c.isDigit = true) : isPySpace c = false := by
  by_contra hc
  have hc' : isPySpace c = true := by
    revert hc; cases isPySpace c <;> simp
  unfold isPySpace at hc'
  simp only [Bool.or_eq_true, decide_eq_true_eq] at hc'
  rcases hc' with ((((h1 | h1) | h1) | h1) | h1) | h1 <;> subst h1 <;>
    exact absurd h (by decide)

theorem dropWhile_all_false {p : Char → Bool} :
    ∀ l : List Char, (∀ c ∈ l, p c = false) → l.dropWhile p = l
  | [], _ => rfl
  | c :: rest, h => by
    simp [List.dropWhile, h c (List.mem_cons_self c rest)]

theorem pyStrip_no_space (l : List Char) (h : ∀ c ∈ l, isPySpace c = false) :
    pyStrip l = l := by
  rw [pyStrip, dropWhile_all_false l h]
  rw [dropWhile_all_false l.reverse (fun c hc => h c (List.mem_reverse.mp hc))]
  exact List.reverse_reverse l

theorem strip_all_digits (l : List Char) (h : ∀ c ∈ l, c.isDigit = true) :
    pyStrip l = l :=
  pyStrip_no_space l (fun c hc => isDigit_not_pySpace (h c hc))

theorem pyDigitsTail_all : ∀ l : List Char, (∀ c ∈ l, c.isDigit = true) → pyDigitsTail l = true
  | [], _ => rfl
  | c :: rest, h => by
    have hc : c.isDigit = true := h c (List.mem_cons_self c rest)
    have hne : c ≠ '_' := isDigit_ne hc (by decide)
    rw [pyDigitsTail.eq_def]
    simp only [hne, if_false, Bool.and_eq_true]
    exact And.intro hc (pyDigitsTail_all rest (fun d hd => h d (List.mem_cons_of_mem c hd)))

theorem pyDigitsOk_all (l : List Char) (hne : l ≠ []) (h : ∀ c ∈ l, c.isDigit = true) :
    pyDigitsOk l = true := by
  rcases l with _ | ⟨c, rest⟩
  · exact absurd rfl hne
  · simp only [pyDigitsOk, Bool.and_eq_true]
    exact And.intro (h c (List.mem_cons_self c rest))
      (pyDigitsTail_all rest (fun d hd => h d (List.mem_cons_of_mem c hd)))

theorem filter_no_underscore (l : List Char) (h : ∀ c ∈ l, c.isDigit = true) :
    l.filter (fun c => c ≠ '_') = l := by
  apply List.filter_eq_self.mpr
  intro c hc
  simpa using isDigit_ne (h c hc) (by decide)

theorem pyDigitsVal_all (l : List Char) (h : ∀ c ∈ l, c.isDigit = true) :
    pyDigitsVal l = natOfDigits l := by
  rw [pyDigitsVal, filter_no_underscore l h]

theorem natRepr_data_digits (n : Nat) : ∀ c ∈ (natRepr n).data, c.isDigit = true := by
  intro c hc
  rw [natRepr] at hc
  by_cases h0 : n = 0
  · simp [h0] at hc
    subst hc; decide
  · simp only [h0, if_false] at hc
    rcases natDigitsAux_mem n [] c hc with h | h
    · exact absurd h (List.not_mem_nil c)
    · exact h

theorem natRepr_data_ne_nil (n : Nat) : (natRepr n).data ≠ [] := by
  rw [natRepr]
  by_cases h0 : n = 0
  · simp [h0]
  · simp only [h0, if_false]
    obtain ⟨c, rest, he, -, -⟩ := natDigitsAux_head n (Nat.one_le_iff_ne_zero.mpr h0) []
    simp [he]

theorem natOfDigits_natRepr (n : Nat) : natOfDigits (natRepr n).data = n := by
  rw [natRepr]
  by_cases h0 : n = 0
  · simp [h0]; decide
  · simp only [h0, if_false]
    show natOfDigits (natDigitsAux n []) = n
    rw [natDigitsAux_value n []]
    rfl

theorem pyInt_natRepr (n : Nat) : pyInt (natRepr n) = some (n : Int) := by
  rw [pyInt]
  have hd := natRepr_data_digits n
  have hne := natRepr_data_ne_nil n
  rw [strip_all_digits _ hd]
  rcases he : (natRepr n).data with _ | ⟨c, rest⟩
  · exact absurd he hne
  · rw [pyIntCore]
    have hc : c.isDigit = true := hd c (by rw [he]; exact List.mem_cons_self c rest)
    have hplus : c ≠ '+' := isDigit_ne hc (by decide)
    have hminus : c ≠ '-' := isDigit_ne hc (by decide)
    have hok : pyDigitsOk (c :: rest) = true := by
      rw [← he]; exact pyDigitsOk_all _ hne hd
    have hval : pyDigitsVal (c :: rest) = natOfDigits (c :: rest) := by
      rw [← he]; exact pyDigitsVal_all _ hd
    simp only [hplus, hminus, if_false, hok, if_true, hval]
    rw [← he, natOfDigits_natRepr n]

theorem redisDigitsOk_natRepr (n : Nat) : redisDigitsOk (natRepr n).data = true := by
  by_cases h0 : n = 0
  · subst h0; decide
  · rw [natRepr]
    simp only [h0, if_false]
    obtain ⟨c, rest, he, hdig, hc0⟩ := natDigitsAux_head n (Nat.one_le_iff_ne_zero.mpr h0) []
    show redisDigitsOk (natDigitsAux n []) = true
    rw [he, redisDigitsOk]
    simp only [hc0, if_false, Bool.and_eq_true]
    refine ⟨hdig, ?_⟩
    rw [List.all_eq_true]
    intro d hd
    rcases natDigitsAux_mem n [] d (by rw [he]; exact List.mem_cons_of_mem c hd) with h | h
    · exact absurd h (List.not_mem_nil d)
    · exact h

theorem redisInt_natRepr (n : Nat) : redisInt (natRepr n) = some (n : Int) := by
  rw [redisInt]
  have hne := natRepr_data_ne_nil n
  rcases he : (natRepr n).data with _ | ⟨c, rest⟩
  · exact absurd he hne
  · rw [redisIntCore]
    have hc : c.isDigit = true := natRepr_data_digits n c (by rw [he]; exact List.mem_cons_self c rest)
    have hminus : c ≠ '-' := isDigit_ne hc (by decide)
    have hok : redisDigitsOk (c :: rest) = true := by rw [← he]; exact redisDigitsOk_natRepr n
    simp only [hminus, if_false, hok, if_true]
    rw [← he, natOfDigits_natRepr n]

theorem intRepr_nonneg (k : Int) (hk : 0 ≤ k) : intRepr k = natRepr k.toNat := by
  rw [intRepr, if_neg (by omega)]

theorem pyInt_intRepr (k : Int) (hk : 0 ≤ k) : pyInt (intRepr k) = some k := by
  rw [intRepr_nonneg k hk, pyInt_natRepr]
  congr 1
  omega

theorem redisInt_intRepr (k : Int) (hk : 0 ≤ k) : redisInt (intRepr k) = some k := by
  rw [intRepr_nonneg k hk, redisInt_natRepr]
  congr 1
  omega

theorem redisDigitsOk_all_digits (l : List Char) (h : redisDigitsOk l = true) :
    l ≠ [] ∧ ∀ c ∈ l, c.isDigit = true := by
  rcases l with _ | ⟨c, rest⟩
  · rw [redisDigitsOk] at h; cases h
  · rw [redisDigitsOk] at h
    by_cases hc0 : c = '0'
    · subst hc0
      rw [if_pos rfl] at h
      have hrest : rest = [] := List.isEmpty_iff.mp h
      subst hrest
      exact ⟨by simp, by intro d hd; simp at hd; subst hd; decide⟩
    · rw [if_neg hc0, Bool.and_eq_true] at h
      refine ⟨by simp, ?_⟩
      intro d hd
      rcases List.mem_cons.mp hd with h1 | h1
      · exact h1 ▸ h.1
      · exact List.all_eq_true.mp h.2 d h1

theorem redisInt_pyInt {v : String} {n : Int} (h : redisInt v = some n) : pyInt v = some n := by
  rw [redisInt] at h
  rw [pyInt]
  rcases hv : v.data with _ | ⟨c, rest⟩
  · rw [hv, redisIntCore] at h; cases h
  · rw [hv, redisIntCore] at h
    by_cases hm : c = '-'
    · subst hm
      rw [if_pos rfl] at h
      by_cases hok : redisDigitsOk rest = true
      · rw [if_pos hok] at h
        obtain ⟨hne, hd⟩ := redisDigitsOk_all_digits rest hok
        have hstrip : pyStrip ('-' :: rest) = '-' :: rest := by
          apply pyStrip_no_space
          intro d hdm
          rcases List.mem_cons.mp hdm with h1 | h1
          · subst h1; decide
          · exact isDigit_not_pySpace (hd d h1)
        rw [hstrip, pyIntCore]
        have hnp : ('-' : Char) ≠ '+' := by decide
        simp only [hnp, if_false, if_pos rfl, pyDigitsOk_all rest hne hd, if_true,
          pyDigitsVal_all rest hd]
        exact h
      · rw [if_neg hok] at h; cases h
    · rw [if_neg hm] at h
      by_cases hok : redisDigitsOk (c :: rest) = true
      · rw [if_pos hok] at h
        obtain ⟨hne, hd⟩ := redisDigitsOk_all_digits (c :: rest) hok
        have hstrip : pyStrip (c :: rest) = c :: rest := by
          apply pyStrip_no_space
          intro d hdm
          exact isDigit_not_pySpace (hd d hdm)
        rw [hstrip, pyIntCore]
        have hc : c.isDigit = true := hd c (List.mem_cons_self c rest)
        have hnp : c ≠ '+' := isDigit_ne hc (by decide)
        simp only [hnp, if_false, hm, pyDigitsOk_all (c :: rest) hne hd, if_true,
          pyDigitsVal_all (c :: rest) hd]
        exact h
      · rw [if_neg hok] at h; cases h

theorem pyInt_none_redisInt {v : String} (h : pyInt v = none) : redisInt v = none := by
  rcases hr : redisInt v with _ | n
  · rfl
  · rw [redisInt_pyInt hr] at h; cases h

end RateLimiterModel
namespace RateLimiterModel

theorem checkWithConfig_deny (B : Behavior) (S : Store) (limit : Int) (ws : Nat)
    (id ty : String) (now : Nat)
    (h : limit ≤ getCurrentCount B S (buildRedisKey ty id (getCurrentWindow ws now))) :
    checkWithConfig B S limit ws id ty now =
      { result := .ok
          { allowed := false, limit := limit, remaining := 0,
            resetAt := calculateResetTime ws now,
            currentCount := getCurrentCount B S (buildRedisKey ty id (getCurrentWindow ws now)),
            window := getCurrentWindow ws now,
            retryAfter :=
              if storeTtl B S (buildRedisKey ty id (getCurrentWindow ws now)) > 0
              then storeTtl B S (buildRedisKey ty id (getCurrentWindow ws now))
              else (ws : Int) },
        store := S,
        ops := [.getOp (buildRedisKey ty id (getCurrentWindow ws now)),
                .ttlOp (buildRedisKey ty id (getCurrentWindow ws now))] } := by
  rw [checkWithConfig]
  simp only [ge_iff_le, if_pos h]

theorem storeIncr_none_store (B : Behavior) (S : Store) (key : String)
    (h : (storeIncr B S key).1 = none) : (storeIncr B S key).2 = S := by
  by_cases hb : B.incrFails
  · simp [storeIncr, hb]
  · rcases hv : S.val key with _ | v
    · simp [storeIncr, hb, hv] at h
    · rcases hr : redisInt v with _ | n
      · simp [storeIncr, hb, hv, hr]
      · simp [storeIncr, hb, hv, hr] at h

theorem checkWithConfig_error (B : Behavior) (S : Store) (limit : Int) (ws : Nat)
    (id ty : String) (now : Nat)
    (hlt : getCurrentCount B S (buildRedisKey ty id (getCurrentWindow ws now)) < limit)
    (hincr : (storeIncr B S (buildRedisKey ty id (getCurrentWindow ws now))).1 = none) :
    checkWithConfig B S limit ws id ty now =
      { result := .error .typeError, store := S,
        ops := [.getOp (buildRedisKey ty id (getCurrentWindow ws now)),
                .incrOp (buildRedisKey ty id (getCurrentWindow ws now)) none] } := by
  rw [checkWithConfig]
  simp only [ge_iff_le, if_neg (not_le.mpr hlt), hincr]
  rw [storeIncr_none_store B S _ hincr]

theorem checkWithConfig_allow_first (B : Behavior) (S : Store) (limit : Int) (ws : Nat)
    (id ty : String) (now : Nat)
    (hlt : getCurrentCount B S (buildRedisKey ty id (getCurrentWindow ws now)) < limit)
    (hincr : (storeIncr B S (buildRedisKey ty id (getCurrentWindow ws now))).1 = some 1) :
    checkWithConfig B S limit ws id ty now =
      { result := .ok
          { allowed := true, limit := limit, remaining := max 0 (limit - 1),
            resetAt := calculateResetTime ws now, currentCount := 1,
            window := getCurrentWindow ws now },
        store := (storeExpire B (storeIncr B S (buildRedisKey ty id (getCurrentWindow ws now))).2
            (buildRedisKey ty id (getCurrentWindow ws now)) ws).2,
        ops := [.getOp (buildRedisKey ty id (getCurrentWindow ws now)),
                .incrOp (buildRedisKey ty id (getCurrentWindow ws now)) (some 1),
                .expireOp (buildRedisKey ty id (getCurrentWindow ws now)) ws] } := by
  rw [checkWithConfig]
  simp only [ge_iff_le, if_neg (not_le.mpr hlt), hincr, if_true]

theorem checkWithConfig_allow_later (B : Behavior) (S : Store) (limit : Int) (ws : Nat)
    (id ty : String) (now : Nat) (m : Int)
    (hlt : getCurrentCount B S (buildRedisKey ty id (getCurrentWindow ws now)) < limit)
    (hincr : (storeIncr B S (buildRedisKey ty id (getCurrentWindow ws now))).1 = some m)
    (hm : m ≠ 1) :
    checkWithConfig B S limit ws id ty now =
      { result := .ok
          { allowed := true, limit := limit, remaining := max 0 (limit - m),
            resetAt := calculateResetTime ws now, currentCount := m,
            window := getCurrentWindow ws now },
        store := (storeIncr B S (buildRedisKey ty id (getCurrentWindow ws now))).2,
        ops := [.getOp (buildRedisKey ty id (getCurrentWindow ws now)),
                .incrOp (buildRedisKey ty id (getCurrentWindow ws now)) (some m)] } := by
  rw [checkWithConfig]
  simp only [ge_iff_le, if_neg (not_le.mpr hlt), hincr, if_neg hm]

theorem fmtMinute_trunc (e : Nat) : fmtMinute (e - e % 60) = fmtMinute e := by
  have hday : (e - e % 60) / 86400 = e / 86400 := by omega
  have hhour : (e - e % 60) % 86400 / 3600 = e % 86400 / 3600 := by omega
  have hmin : (e - e % 60) % 86400 % 3600 / 60 = e % 86400 % 3600 / 60 := by omega
  rw [fmtMinute, fmtMinute, hday, hhour, hmin]

theorem fmtHour_trunc (e : Nat) : fmtHour (e - e % 3600) = fmtHour e := by
  have hday : (e - e % 3600) / 86400 = e / 86400 := by omega
  have hhour : (e - e % 3600) % 86400 / 3600 = e % 86400 / 3600 := by omega
  rw [fmtHour, fmtHour, hday, hhour]

theorem storeIncr_create (B : Behavior) (S : Store) (key : String)
    (hB : B.incrFails = false) (hv : S.val key = none) :
    storeIncr B S key =
      (some 1,
       { val := fun k => if k = key then some (intRepr 1) else S.val k,
         lifetime := fun k => if k = key then -1 else S.lifetime k }) := by
  simp [storeIncr, hB, hv]

theorem storeIncr_parse (B : Behavior) (S : Store) (key v : String) (kv : Int)
    (hB : B.incrFails = false) (hv : S.val key = some v) (hp : redisInt v = some kv) :
    storeIncr B S key =
      (some (kv + 1),
       { val := fun k => if k = key then some (intRepr (kv + 1)) else S.val k,
         lifetime := S.lifetime }) := by
  simp [storeIncr, hB, hv, hp]

theorem storeIncr_corrupt (B : Behavior) (S : Store) (key v : String)
    (hv : S.val key = some v) (hp : redisInt v = none) :
    storeIncr B S key = (none, S) := by
  by_cases hB : B.incrFails
  · simp [storeIncr, hB]
  · simp [storeIncr, hB, hv, hp]

theorem getCurrentCount_absent (B : Behavior) (S : Store) (key : String)
    (hB : B.getFails = false) (hv : S.val key = none) :
    getCurrentCount B S key = 0 := by
  simp [getCurrentCount, storeGet, hB, hv]

theorem getCurrentCount_value (B : Behavior) (S : Store) (key v : String) (k : Int)
    (hB : B.getFails = false) (hv : S.val key = some v) (hp : pyInt v = some k) :
    getCurrentCount B S key = k := by
  simp [getCurrentCount, storeGet, hB, hv, hp]

theorem getCurrentCount_unparseable (B : Behavior) (S : Store) (key v : String)
    (hv : S.val key = some v) (hp : pyInt v = none) :
    getCurrentCount B S key = 0 := by
  by_cases hB : B.getFails
  · simp [getCurrentCount, storeGet, hB]
  · simp [getCurrentCount, storeGet, hB, hv, hp]

theorem storeExpire_present (B : Behavior) (S : Store) (key v : String) (secs : Nat)
    (hB : B.expireFails = false) (hv : S.val key = some v) :
    storeExpire B S key secs =
      (true,
       { val := S.val,
         lifetime := fun k => if k = key then (secs : Int) else S.lifetime k }) := by
  simp [storeExpire, hB, hv]

theorem checkWithConfig_first (S : Store) (limit : Int) (ws : Nat) (id ty : String) (now : Nat)
    (hlim : 1 ≤ limit)
    (hv : S.val (buildRedisKey ty id (getCurrentWindow ws now)) = none) :
    (checkWithConfig noFail S limit ws id ty now).ops =
      [.getOp (buildRedisKey ty id (getCurrentWindow ws now)),
       .incrOp (buildRedisKey ty id (getCurrentWindow ws now)) (some 1),
       .expireOp (buildRedisKey ty id (getCurrentWindow ws now)) ws] ∧
    CounterInv (checkWithConfig noFail S limit ws id ty now).store
      (buildRedisKey ty id (getCurrentWindow ws now)) := by
  have hc : getCurrentCount noFail S (buildRedisKey ty id (getCurrentWindow ws now)) = 0 :=
    getCurrentCount_absent noFail S _ rfl hv
  have hincr := storeIncr_create noFail S (buildRedisKey ty id (getCurrentWindow ws now)) rfl hv
  have hout := checkWithConfig_allow_first noFail S limit ws id ty now
    (by rw [hc]; omega) (by rw [hincr])
  rw [hout]
  refine ⟨rfl, ?_⟩
  rw [hincr]
  rw [storeExpire_present noFail _ _ (intRepr 1) ws rfl (by simp)]
  exact ⟨1, le_refl 1, by simp⟩

theorem checkWithConfig_inv (S : Store) (limit : Int) (ws : Nat) (id ty : String) (now : Nat)
    (hinv : CounterInv S (buildRedisKey ty id (getCurrentWindow ws now))) :
    (checkWithConfig noFail S limit ws id ty now).ops.filter isExpireCall = [] ∧
    CounterInv (checkWithConfig noFail S limit ws id ty now).store
      (buildRedisKey ty id (getCurrentWindow ws now)) := by
  obtain ⟨k, hk, hv⟩ := hinv
  have hc : getCurrentCount noFail S (buildRedisKey ty id (getCurrentWindow ws now)) = k :=
    getCurrentCount_value noFail S _ (intRepr k) k rfl hv (pyInt_intRepr k (by omega))
  by_cases hle : limit ≤ k
  · rw [checkWithConfig_deny noFail S limit ws id ty now (by rw [hc]; exact hle)]
    exact ⟨by simp [isExpireCall], ⟨k, hk, hv⟩⟩
  · have hincr := storeIncr_parse noFail S (buildRedisKey ty id (getCurrentWindow ws now))
      (intRepr k) k rfl hv (redisInt_intRepr k (by omega))
    rw [checkWithConfig_allow_later noFail S limit ws id ty now (k + 1)
      (by rw [hc]; omega) (by rw [hincr]) (by omega)]
    refine ⟨by simp [isExpireCall], ⟨k + 1, by omega, ?_⟩⟩
    rw [hincr]
    simp

theorem runChecks_inv (limit : Int) (ws : Nat) (id ty : String) (now : Nat) :
    ∀ (n : Nat) (S : Store), CounterInv S (buildRedisKey ty id (getCurrentWindow ws now)) →
    (runChecks noFail S limit ws id ty now n).2.filter isExpireCall = [] := by
  intro n
  induction n with
  | zero => intro S _; rfl
  | succ m ih =>
    intro S hinv
    obtain ⟨hops, hinv'⟩ := checkWithConfig_inv S limit ws id ty now hinv
    rw [runChecks]
    simp only [List.filter_append]
    rw [hops, ih _ hinv']
    rfl

theorem runChecks_expire_once (S : Store) (limit : Int) (ws : Nat) (id ty : String)
    (now : Nat) (n : Nat) (hlim : 1 ≤ limit)
    (hv : S.val (buildRedisKey ty id (getCurrentWindow ws now)) = none) :
    (runChecks noFail S limit ws id ty now (n + 1)).2.filter isExpireCall =
      [.expireOp (buildRedisKey ty id (getCurrentWindow ws now)) ws] := by
  obtain ⟨hops, hinv⟩ := checkWithConfig_first S limit ws id ty now hlim hv
  rw [runChecks]
  simp only [List.filter_append]
  rw [hops, runChecks_inv limit ws id ty now n _ hinv]
  simp [isExpireCall]

/-- C1: `check_rate_limit` has no `limit == -1` branch, so with an unlimited
strategy and a fresh counter the code reads the store, evaluates `0 >= -1`,
and DENIES the call after a get and a ttl round-trip — against the specified
bypass (allowed, unbounded remaining, store untouched).  Evaluation of the
code at the failing input. -/
theorem claim_C1_unlimited_strategy_denied :
    (checkWithConfig noFail emptyStore (-1) 60 "u1" "user" 0).result =
      .ok { allowed := false, limit := -1, remaining := 0, resetAt := 60,
            currentCount := 0, window := "1970-01-01-00:00", retryAfter := 60 } ∧
    (checkWithConfig noFail emptyStore (-1) 60 "u1" "user" 0).ops =
      [.getOp "rate:user:u1:1970-01-01-00:00", .ttlOp "rate:user:u1:1970-01-01-00:00"] :=
  ⟨rfl, rfl⟩

/-- C2 counterexample: the counter key for kind `user`, identifier `u1` and
window label `w` is not the bare composite `user:u1:w` — the code prepends
the fixed `rate:` namespace. -/
theorem claim_C2_counterexample : buildRedisKey "user" "u1" "w" ≠ "user:u1:w" := by
  decide

/-- C2 amended: the counter key is `rate:` followed by kind, identifier and
window label, colon-separated; check, get_status and reset address exactly
this one key on the read path and the write path alike. -/
theorem claim_C2_key_prefixed :
    (∀ t i w : String, buildRedisKey t i w = "rate:" ++ t ++ ":" ++ i ++ ":" ++ w) ∧
    (∀ (B : Behavior) (S : Store) (limit : Int) (ws now : Nat) (i t : String),
      (∀ op ∈ (checkWithConfig B S limit ws i t now).ops,
        op.key = buildRedisKey t i (getCurrentWindow ws now)) ∧
      (∀ op ∈ (getStatusWithConfig B S limit ws i t now).ops,
        op.key = buildRedisKey t i (getCurrentWindow ws now)) ∧
      (∀ op ∈ (resetWithConfig B S ws i t now).2.2,
        op.key = buildRedisKey t i (getCurrentWindow ws now))) := by
  refine ⟨fun t i w => rfl, fun B S limit ws now i t => ⟨?_, ?_, ?_⟩⟩
  · by_cases hle : limit ≤ getCurrentCount B S (buildRedisKey t i (getCurrentWindow ws now))
    · rw [checkWithConfig_deny B S limit ws i t now hle]
      intro op hop
      simp only [List.mem_cons, List.not_mem_nil, or_false] at hop
      rcases hop with h | h <;> subst h <;> rfl
    · rcases hincr : (storeIncr B S (buildRedisKey t i (getCurrentWindow ws now))).1
        with _ | m
      · rw [checkWithConfig_error B S limit ws i t now (not_le.mp hle) hincr]
        intro op hop
        simp only [List.mem_cons, List.not_mem_nil, or_false] at hop
        rcases hop with h | h <;> subst h <;> rfl
      · rcases eq_or_ne m 1 with h1 | h1
        · subst h1
          rw [checkWithConfig_allow_first B S limit ws i t now (not_le.mp hle) hincr]
          intro op hop
          simp only [List.mem_cons, List.not_mem_nil, or_false] at hop
          rcases hop with h | h | h <;> subst h <;> rfl
        · rw [checkWithConfig_allow_later B S limit ws i t now m (not_le.mp hle) hincr h1]
          intro op hop
          simp only [List.mem_cons, List.not_mem_nil, or_false] at hop
          rcases hop with h | h <;> subst h <;> rfl
  · intro op hop
    simp only [getStatusWithConfig, List.mem_cons, List.not_mem_nil, or_false] at hop
    subst hop
    rfl
  · intro op hop
    simp only [resetWithConfig, List.mem_cons, List.not_mem_nil, or_false] at hop
    subst hop
    rfl

/-- C2 witness: the amended statement applied at a concrete call. -/
theorem claim_C2_witness :
    StoreOp.getOp "rate:user:u1:1970-01-01-00:00" ∈
      (checkWithConfig noFail emptyStore 20 60 "u1" "user" 0).ops ∧
    (StoreOp.getOp "rate:user:u1:1970-01-01-00:00").key =
      buildRedisKey "user" "u1" (getCurrentWindow 60 0) :=
  ⟨by decide,
   (claim_C2_key_prefixed.2 noFail emptyStore 20 60 0 "u1" "user").1 _ (by decide)⟩

/-- C3: every store-boundary failure is indeed caught inside the wrapper and
surfaced as a typed in-band sentinel (None / False / -1), but check itself is
NOT total: when increment reports failure, `new_count` is None, and the code
raises TypeError at `max(0, limit - new_count)`.  Evaluation of the code at
the failing input. -/
theorem claim_C3_store_failure_crashes_check :
    storeGet { getFails := true } emptyStore "k" = none ∧
    storeIncr { incrFails := true } emptyStore "k" = (none, emptyStore) ∧
    storeTtl { ttlFails := true } emptyStore "k" = -1 ∧
    storeExpire { expireFails := true } emptyStore "k" 60 = (false, emptyStore) ∧
    (checkWithConfig { incrFails := true } emptyStore 20 60 "u1" "user" 0).result =
      .error .typeError :=
  ⟨rfl, rfl, rfl, rfl, rfl⟩

/-- C4: for a bounded strategy, a check at stored count limit-1 is allowed
and leaves the counter at exactly limit; a check at stored count at or above
limit is denied — the cap is inclusive, limit calls are admitted. -/
theorem claim_C4_inclusive_cap (limit : Int) (hl : 0 ≤ limit) (ws : Nat)
    (id ty : String) (now : Nat) :
    (∀ (S : Store) (v : String),
      S.val (buildRedisKey ty id (getCurrentWindow ws now)) = some v →
      pyInt v = some (limit - 1) → redisInt v = some (limit - 1) →
      (∃ r, (checkWithConfig noFail S limit ws id ty now).result = .ok r ∧
        r.allowed = true ∧ r.currentCount = limit) ∧
      (checkWithConfig noFail S limit ws id ty now).store.val
        (buildRedisKey ty id (getCurrentWindow ws now)) = some (intRepr limit)) ∧
    (∀ (S : Store) (v : String) (c : Int),
      S.val (buildRedisKey ty id (getCurrentWindow ws now)) = some v →
      pyInt v = some c → limit ≤ c →
      ∃ r, (checkWithConfig noFail S limit ws id ty now).result = .ok r ∧
        r.allowed = false ∧ r.currentCount = c) := by
  constructor
  · intro S v hv hpy hred
    have hc : getCurrentCount noFail S (buildRedisKey ty id (getCurrentWindow ws now)) =
        limit - 1 := getCurrentCount_value noFail S _ v (limit - 1) rfl hv hpy
    have hincr := storeIncr_parse noFail S (buildRedisKey ty id (getCurrentWindow ws now))
      v (limit - 1) rfl hv hred
    have h1 : limit - 1 + 1 = limit := by omega
    rcases eq_or_ne limit 1 with he | he
    · subst he
      rw [checkWithConfig_allow_first noFail S 1 ws id ty now
        (by omega) (by rw [hincr]; norm_num)]
      refine ⟨⟨_, rfl, rfl, rfl⟩, ?_⟩
      rw [hincr]
      rw [storeExpire_present noFail _ _ (intRepr (1 - 1 + 1)) ws rfl (by simp)]
      simp
    · rw [checkWithConfig_allow_later noFail S limit ws id ty now limit
        (by omega) (by rw [hincr, h1]) he]
      refine ⟨⟨_, rfl, rfl, rfl⟩, ?_⟩
      rw [hincr]
      simp [h1]
  · intro S v c hv hpy hle
    have hc : getCurrentCount noFail S (buildRedisKey ty id (getCurrentWindow ws now)) = c :=
      getCurrentCount_value noFail S _ v c rfl hv hpy
    rw [checkWithConfig_deny noFail S limit ws id ty now (by rw [hc]; exact hle)]
    exact ⟨_, rfl, rfl, hc⟩

/-- C4 witness: limit 3, stored count 2 is allowed and lands on 3; stored
count 3 is denied. -/
theorem claim_C4_witness :
    ((0 : Int) ≤ 3 ∧
      (storeWithValue "rate:user:u1:1970-01-01-00:00" "2").val
        (buildRedisKey "user" "u1" (getCurrentWindow 60 0)) = some "2" ∧
      pyInt "2" = some (3 - 1) ∧ redisInt "2" = some (3 - 1)) ∧
    ((∃ r, (checkWithConfig noFail (storeWithValue "rate:user:u1:1970-01-01-00:00" "2")
        3 60 "u1" "user" 0).result = .ok r ∧ r.allowed = true ∧ r.currentCount = 3) ∧
      (checkWithConfig noFail (storeWithValue "rate:user:u1:1970-01-01-00:00" "2")
        3 60 "u1" "user" 0).store.val
          (buildRedisKey "user" "u1" (getCurrentWindow 60 0)) = some (intRepr 3)) :=
  ⟨⟨by decide, by decide, by decide, by decide⟩,
   (claim_C4_inclusive_cap 3 (by decide) 60 "u1" "user" 0).1
     (storeWithValue "rate:user:u1:1970-01-01-00:00" "2") "2"
     (by decide) (by decide) (by decide)⟩

/-- C5: a denied check performs only the get and the ttl read, leaves the
store untouched, and returns allowed false, remaining 0, the count it read,
and retry_after from a positive ttl or else the window size. -/
theorem claim_C5_denial_frame (B : Behavior) (S : Store) (limit : Int) (ws : Nat)
    (id ty : String) (now : Nat)
    (h : limit ≤ getCurrentCount B S (buildRedisKey ty id (getCurrentWindow ws now))) :
    (checkWithConfig B S limit ws id ty now).store = S ∧
    (checkWithConfig B S limit ws id ty now).ops =
      [.getOp (buildRedisKey ty id (getCurrentWindow ws now)),
       .ttlOp (buildRedisKey ty id (getCurrentWindow ws now))] ∧
    (∀ op ∈ (checkWithConfig B S limit ws id ty now).ops, isWriteCall op = false) ∧
    (checkWithConfig B S limit ws id ty now).result = .ok
      { allowed := false, limit := limit, remaining := 0,
        resetAt := calculateResetTime ws now,
        currentCount := getCurrentCount B S (buildRedisKey ty id (getCurrentWindow ws now)),
        window := getCurrentWindow ws now,
        retryAfter :=
          if storeTtl B S (buildRedisKey ty id (getCurrentWindow ws now)) > 0
          then storeTtl B S (buildRedisKey ty id (getCurrentWindow ws now))
          else (ws : Int) } := by
  rw [checkWithConfig_deny B S limit ws id ty now h]
  refine ⟨rfl, rfl, ?_, rfl⟩
  intro op hop
  simp only [List.mem_cons, List.not_mem_nil, or_false] at hop
  rcases hop with h1 | h1 <;> subst h1 <;> rfl

/-- C5 witness: a full window (count 20 at limit 20) is denied without store
writes. -/
theorem claim_C5_witness :
    (20 : Int) ≤ getCurrentCount noFail
      (storeWithValue "rate:user:u1:1970-01-01-00:00" "20")
      (buildRedisKey "user" "u1" (getCurrentWindow 60 0)) ∧
    (checkWithConfig noFail (storeWithValue "rate:user:u1:1970-01-01-00:00" "20")
      20 60 "u1" "user" 0).ops =
      [.getOp (buildRedisKey "user" "u1" (getCurrentWindow 60 0)),
       .ttlOp (buildRedisKey "user" "u1" (getCurrentWindow 60 0))] :=
  ⟨by decide,
   (claim_C5_denial_frame noFail (storeWithValue "rate:user:u1:1970-01-01-00:00" "20")
     20 60 "u1" "user" 0 (by decide)).2.1⟩

/-- C6: get_status performs exactly one get — no increment, expire or delete
— leaves the store unchanged, and two consecutive status calls in the same
window return the same result. -/
theorem claim_C6_status_read_only (B : Behavior) (S : Store) (limit : Int) (ws : Nat)
    (id ty : String) (now : Nat) :
    (getStatusWithConfig B S limit ws id ty now).ops =
      [.getOp (buildRedisKey ty id (getCurrentWindow ws now))] ∧
    (∀ op ∈ (getStatusWithConfig B S limit ws id ty now).ops, isWriteCall op = false) ∧
    (getStatusWithConfig B S limit ws id ty now).store = S ∧
    getCurrentCount B (getStatusWithConfig B S limit ws id ty now).store
        (buildRedisKey ty id (getCurrentWindow ws now)) =
      getCurrentCount B S (buildRedisKey ty id (getCurrentWindow ws now)) ∧
    (getStatusWithConfig B (getStatusWithConfig B S limit ws id ty now).store
        limit ws id ty now).result =
      (getStatusWithConfig B S limit ws id ty now).result := by
  refine ⟨rfl, ?_, rfl, rfl, rfl⟩
  intro op hop
  simp only [getStatusWithConfig, List.mem_cons, List.not_mem_nil, or_false] at hop
  subst hop
  rfl

/-- C6 witness: the read-only property applied at a concrete call. -/
theorem claim_C6_witness :
    StoreOp.getOp "rate:user:u1:1970-01-01-00:00" ∈
      (getStatusWithConfig noFail emptyStore 20 60 "u1" "user" 0).ops ∧
    isWriteCall (StoreOp.getOp "rate:user:u1:1970-01-01-00:00") = false :=
  ⟨by decide,
   (claim_C6_status_read_only noFail emptyStore 20 60 "u1" "user" 0).2.1 _ (by decide)⟩

/-- C7: in any single check, an expire is issued exactly when the increment
returned 1, and every expire issued addresses the call's key with exactly
window_seconds; along a sequence of checks in one window starting from an
absent counter, exactly one expire is ever issued. -/
theorem claim_C7_ttl_armed_once :
    (∀ (B : Behavior) (S : Store) (limit : Int) (ws : Nat) (id ty : String) (now : Nat),
      (StoreOp.expireOp (buildRedisKey ty id (getCurrentWindow ws now)) ws ∈
          (checkWithConfig B S limit ws id ty now).ops ↔
        StoreOp.incrOp (buildRedisKey ty id (getCurrentWindow ws now)) (some 1) ∈
          (checkWithConfig B S limit ws id ty now).ops) ∧
      (∀ (k : String) (s : Nat),
        StoreOp.expireOp k s ∈ (checkWithConfig B S limit ws id ty now).ops →
        k = buildRedisKey ty id (getCurrentWindow ws now) ∧ s = ws)) ∧
    (∀ (S : Store) (limit : Int) (ws : Nat) (id ty : String) (now n : Nat),
      1 ≤ limit → S.val (buildRedisKey ty id (getCurrentWindow ws now)) = none →
      (runChecks noFail S limit ws id ty now (n + 1)).2.filter isExpireCall =
        [.expireOp (buildRedisKey ty id (getCurrentWindow ws now)) ws]) := by
  constructor
  · intro B S limit ws id ty now
    by_cases hle : limit ≤ getCurrentCount B S (buildRedisKey ty id (getCurrentWindow ws now))
    · rw [checkWithConfig_deny B S limit ws id ty now hle]
      refine ⟨by simp, ?_⟩
      intro k s hk
      simp at hk
    · rcases hincr : (storeIncr B S (buildRedisKey ty id (getCurrentWindow ws now))).1
        with _ | m
      · rw [checkWithConfig_error B S limit ws id ty now (not_le.mp hle) hincr]
        refine ⟨by simp, ?_⟩
        intro k s hk
        simp at hk
      · rcases eq_or_ne m 1 with h1 | h1
        · subst h1
          rw [checkWithConfig_allow_first B S limit ws id ty now (not_le.mp hle) hincr]
          refine ⟨by simp, ?_⟩
          intro k s hk
          simp at hk
          exact ⟨hk.1, hk.2⟩
        · rw [checkWithConfig_allow_later B S limit ws id ty now m (not_le.mp hle) hincr h1]
          have h1' : (1 : Int) ≠ m := Ne.symm h1
          refine ⟨?_, ?_⟩
          · simp [h1, h1']
          · intro k s hk
            simp at hk
  · intro S limit ws id ty now n hlim hv
    exact runChecks_expire_once S limit ws id ty now n hlim hv

/-- C7 witness: two consecutive checks from an absent counter arm the TTL
exactly once. -/
theorem claim_C7_witness :
    (1 ≤ (20 : Int) ∧ emptyStore.val (buildRedisKey "user" "u1" (getCurrentWindow 60 0)) = none) ∧
    (runChecks noFail emptyStore 20 60 "u1" "user" 0 2).2.filter isExpireCall =
      [.expireOp (buildRedisKey "user" "u1" (getCurrentWindow 60 0)) 60] :=
  ⟨⟨by decide, rfl⟩,
   claim_C7_ttl_armed_once.2 emptyStore 20 60 "u1" "user" 0 1 (by decide) rfl⟩

/-- C8: with window_seconds 60 (resp. 3600) the label is the formatted
minute (resp. hour) truncation of now and reset_at is that boundary plus the
window size; otherwise the label is the decimal string of
floor(now / ws) * ws and reset_at is that bucket plus ws.  These are pure
functions of (now, window size); no store argument exists. -/
theorem claim_C8_window_derivation (now ws : Nat) (hw : 0 < ws) :
    (ws = 60 →
      getCurrentWindow ws now = fmtMinute (now - now % 60) ∧
      calculateResetTime ws now = now - now % 60 + 60) ∧
    (ws = 3600 →
      getCurrentWindow ws now = fmtHour (now - now % 3600) ∧
      calculateResetTime ws now = now - now % 3600 + 3600) ∧
    (ws ≠ 60 → ws ≠ 3600 →
      getCurrentWindow ws now = toString (now / ws * ws) ∧
      calculateResetTime ws now = now / ws * ws + ws) := by
  refine ⟨?_, ?_, ?_⟩
  · intro h
    subst h
    refine ⟨?_, ?_⟩
    · rw [getCurrentWindow, if_pos rfl]
      exact (fmtMinute_trunc now).symm
    · rw [calculateResetTime, if_pos rfl]
  · intro h
    subst h
    refine ⟨?_, ?_⟩
    · rw [getCurrentWindow, if_neg (by decide), if_pos rfl]
      exact (fmtHour_trunc now).symm
    · rw [calculateResetTime, if_neg (by decide), if_pos rfl]
  · intro h60 h3600
    refine ⟨?_, ?_⟩
    · rw [getCurrentWindow, if_neg h60, if_neg h3600]
    · rw [calculateResetTime, if_neg h60, if_neg h3600]

/-- C8 witness: the minute case at a concrete instant. -/
theorem claim_C8_witness :
    0 < 60 ∧
    (getCurrentWindow 60 123456 = fmtMinute (123456 - 123456 % 60) ∧
     calculateResetTime 60 123456 = 123456 - 123456 % 60 + 60) :=
  ⟨by decide, (claim_C8_window_derivation 123456 60 (by decide)).1 rfl⟩

/-- C9 counterexample: the stored value `-3` cannot be parsed as a
NON-NEGATIVE integer, yet the count read is -3, not 0: Python `int` accepts
the negative literal, so the `ValueError` guard never fires and the parsed
negative count flows on (get_status even reports remaining above the
limit). -/
theorem claim_C9_counterexample :
    pyInt "-3" = some (-3) ∧ ((-3 : Int) < 0) ∧
    getCurrentCount noFail (storeWithValue "rate:user:u1:1970-01-01-00:00" "-3")
      "rate:user:u1:1970-01-01-00:00" = -3 ∧
    ((-3 : Int) ≠ 0) ∧
    (getStatusWithConfig noFail (storeWithValue "rate:user:u1:1970-01-01-00:00" "-3")
        20 60 "u1" "user" 0).result =
      .ok { allowed := true, limit := 20, remaining := 23, resetAt := 60,
            currentCount := -3, window := "1970-01-01-00:00", retryAfter := 0 } :=
  ⟨rfl, by decide, rfl, by decide, rfl⟩

/-- C9 amended: a stored value that Python `int` cannot parse at all is read
as count 0 by check and get_status without a fault escaping the read;
get_status then reports the full quota, and check proceeds past the denial
test to the increment exactly as a first call would — the increment itself
then fails on the unparseable record (the store rejects non-integer values),
which the wrapper returns as None and check crashes on (the C3 slip), rather
than completing the first-call path. -/
theorem claim_C9_unparseable_reads_zero (B : Behavior) (S : Store) (limit : Int)
    (ws : Nat) (id ty : String) (now : Nat) (v : String)
    (hv : S.val (buildRedisKey ty id (getCurrentWindow ws now)) = some v)
    (hp : pyInt v = none) (hl : 0 < limit) :
    getCurrentCount B S (buildRedisKey ty id (getCurrentWindow ws now)) = 0 ∧
    (∃ r, (getStatusWithConfig B S limit ws id ty now).result = .ok r ∧
      r.allowed = true ∧ r.currentCount = 0 ∧ r.remaining = limit) ∧
    (checkWithConfig B S limit ws id ty now).ops =
      [.getOp (buildRedisKey ty id (getCurrentWindow ws now)),
       .incrOp (buildRedisKey ty id (getCurrentWindow ws now)) none] ∧
    (checkWithConfig B S limit ws id ty now).result = .error .typeError := by
  have hc0 : getCurrentCount B S (buildRedisKey ty id (getCurrentWindow ws now)) = 0 :=
    getCurrentCount_unparseable B S _ v hv hp
  have hincr1 : (storeIncr B S (buildRedisKey ty id (getCurrentWindow ws now))).1 = none := by
    rw [storeIncr_corrupt B S _ v hv (pyInt_none_redisInt hp)]
  have herr := checkWithConfig_error B S limit ws id ty now (by rw [hc0]; exact hl) hincr1
  refine ⟨hc0, ?_, by rw [herr], by rw [herr]⟩
  have hres : (getStatusWithConfig B S limit ws id ty now).result = .ok
      { allowed :=
          decide (getCurrentCount B S (buildRedisKey ty id (getCurrentWindow ws now)) < limit),
        limit := limit,
        remaining :=
          max 0 (limit - getCurrentCount B S (buildRedisKey ty id (getCurrentWindow ws now))),
        resetAt := calculateResetTime ws now,
        currentCount := getCurrentCount B S (buildRedisKey ty id (getCurrentWindow ws now)),
        window := getCurrentWindow ws now } := rfl
  rw [hc0] at hres
  refine ⟨_, hres, ?_, rfl, ?_⟩
  · simp [hl]
  · simp
    omega

/-- C9 witness: the amended statement at the unparseable stored value
`abc`. -/
theorem claim_C9_witness :
    ((storeWithValue "rate:user:u1:1970-01-01-00:00" "abc").val
        (buildRedisKey "user" "u1" (getCurrentWindow 60 0)) = some "abc" ∧
      pyInt "abc" = none ∧ (0 : Int) < 20) ∧
    getCurrentCount noFail (storeWithValue "rate:user:u1:1970-01-01-00:00" "abc")
      (buildRedisKey "user" "u1" (getCurrentWindow 60 0)) = 0 :=
  ⟨⟨by decide, by decide, by decide⟩,
   (claim_C9_unparseable_reads_zero noFail
     (storeWithValue "rate:user:u1:1970-01-01-00:00" "abc") 20 60 "u1" "user" 0 "abc"
     (by decide) (by decide) (by decide)).1⟩

/-- C10: every allowed decision of check and every decision of get_status
carries retry_after 0; only the denial branch of check sets it. -/
theorem claim_C10_retry_after_zero (B : Behavior) (S : Store) (limit : Int) (ws : Nat)
    (id ty : String) (now : Nat) :
    (∀ r, (checkWithConfig B S limit ws id ty now).result = .ok r → r.allowed = true →
      r.retryAfter = 0) ∧
    (∀ r, (getStatusWithConfig B S limit ws id ty now).result = .ok r →
      r.retryAfter = 0) := by
  constructor
  · intro r hr hall
    by_cases hle : limit ≤ getCurrentCount B S (buildRedisKey ty id (getCurrentWindow ws now))
    · rw [checkWithConfig_deny B S limit ws id ty now hle] at hr
      have := Except.ok.inj hr
      rw [← this] at hall
      cases hall
    · rcases hincr : (storeIncr B S (buildRedisKey ty id (getCurrentWindow ws now))).1
        with _ | m
      · rw [checkWithConfig_error B S limit ws id ty now (not_le.mp hle) hincr] at hr
        exact Except.noConfusion hr
      · rcases eq_or_ne m 1 with h1 | h1
        · subst h1
          rw [checkWithConfig_allow_first B S limit ws id ty now (not_le.mp hle) hincr] at hr
          rw [← Except.ok.inj hr]
        · rw [checkWithConfig_allow_later B S limit ws id ty now m
            (not_le.mp hle) hincr h1] at hr
          rw [← Except.ok.inj hr]
  · intro r hr
    rw [← Except.ok.inj hr]

/-- C10 witness: a concrete allowed decision has retry_after 0. -/
theorem claim_C10_witness :
    (checkWithConfig noFail emptyStore 20 60 "u1" "user" 0).result =
      .ok { allowed := true, limit := 20, remaining := 19, resetAt := 60,
            currentCount := 1, window := "1970-01-01-00:00", retryAfter := 0 } ∧
    RateLimitResult.retryAfter
      { allowed := true, limit := 20, remaining := 19, resetAt := 60,
        currentCount := 1, window := "1970-01-01-00:00", retryAfter := 0 } = 0 :=
  ⟨rfl, (claim_C10_retry_after_zero noFail emptyStore 20 60 "u1" "user" 0).1 _ rfl rfl⟩

end RateLimiterModel
